import Mathlib

/-!
Verification of the query-to-metric engine of `oracledb_exporter` (main.go).

The Go source is shallowly embedded: pure string manipulation becomes Lean
string functions, the database and the Prometheus client library are
abstracted to explicit inputs (a `QueryResult` per executed query) and
outputs (lists of `Sample`s, gauge settings and a trace of connection
operations).  `log.Fatalf` (process exit) is modelled as `Except.error ()`.

Machine floats are abstracted to exact values: `GoFloat` carries a rational
for finite values, and `parseFloat?` accepts the decimal syntax of
`strconv.ParseFloat(s, 64)` with the exact rational value.  Binary rounding
to float64, hexadecimal mantissas and Go 1.13 digit-separating underscores
are abstracted away; out-of-range magnitudes are rejected like ParseFloat's
ErrRange (which the caller treats as a parse failure).  Unicode case mapping
and the Unicode space class are modelled on the ranges Go uses, restricted
to what the configuration strings of this exporter exercise (ASCII letters;
the full White_Space set for trimming).
-/

/-! ## Go string primitives -/

/-- ASCII case lowering: the fragment of Go's `strings.ToLower` exercised by
the exporter's metric names and type strings (non-ASCII runes unchanged). -/
def goCharToLower (c : Char) : Char :=
  if 'A' ≤ c ∧ c ≤ 'Z' then Char.ofNat (c.toNat + 32) else c

/-- `strings.ToLower` on the ASCII range. -/
def goToLower (s : String) : String :=
  String.mk (s.data.map goCharToLower)

/-- `unicode.IsSpace`: Go's White_Space set ('\t', '\n', '\v', '\f', '\r',
' ', U+0085, U+00A0, U+1680, U+2000–U+200A, U+2028, U+2029, U+202F, U+205F,
U+3000). -/
def isGoSpace (c : Char) : Bool :=
  (9 ≤ c.toNat && c.toNat ≤ 13) || c.toNat == 32 || c.toNat == 0x85 ||
  c.toNat == 0xA0 || c.toNat == 0x1680 ||
  (0x2000 ≤ c.toNat && c.toNat ≤ 0x200A) ||
  c.toNat == 0x2028 || c.toNat == 0x2029 || c.toNat == 0x202F ||
  c.toNat == 0x205F || c.toNat == 0x3000

/-- `strings.TrimSpace`: drop leading and trailing White_Space runes. -/
def goTrimSpace (s : String) : String :=
  String.mk (((s.data.dropWhile isGoSpace).reverse.dropWhile isGoSpace).reverse)

/-- `strings.Replace(s, old, new, -1)` for a single-character pattern `old`
(the only shape `cleanName` uses): every occurrence of `old` becomes `new`. -/
def goReplaceChar (s : String) (old : Char) (new : String) : String :=
  String.mk (List.flatten (s.data.map fun c => if c = old then new.data else [c]))

/-- Whether `pat` occurs as a contiguous sublist of `s`. -/
def listContainsSub (pat : List Char) : List Char → Bool
  | [] => pat.isEmpty
  | c :: rest => pat.isPrefixOf (c :: rest) || listContainsSub pat rest

/-- `strings.Contains(s, sub)`. -/
def goContains (s sub : String) : Bool :=
  listContainsSub sub.data s.data

/-- main.go `cleanName`: "Oracle gives us some ugly names back. This function
cleans things up for Prometheus."  Spaces become underscores; parentheses and
forward slashes are removed; the result is lower-cased. -/
def cleanName (s : String) : String :=
  let s1 := goReplaceChar s ' ' "_"
  let s2 := goReplaceChar s1 '(' ""
  let s3 := goReplaceChar s2 ')' ""
  let s4 := goReplaceChar s3 '/' ""
  goToLower s4

/-- `prometheus.BuildFQName(namespace, subsystem, name)`: joins the nonempty
parts with underscores; an empty `name` yields the empty string. -/
def goBuildFQName (ns sub name : String) : String :=
  if name = "" then ""
  else if ns ≠ "" ∧ sub ≠ "" then ns ++ "_" ++ sub ++ "_" ++ name
  else if ns ≠ "" then ns ++ "_" ++ name
  else if sub ≠ "" then sub ++ "_" ++ name
  else name

/-- main.go: `const namespace = "oracledb"` (the metric-name prefix). -/
def oracledbNamespace : String := "oracledb"

/-! ## strconv.ParseFloat (bitSize 64), with exact rational values -/

/-- A float64 as the exporter observes it: finite values are kept exact. -/
inductive GoFloat where
  | num (q : ℚ)
  | inf (neg : Bool)
  | nan
deriving DecidableEq

/-- Value of a digit character. -/
def digitVal (c : Char) : Nat := c.toNat - '0'.toNat

/-- The natural number written by a digit string. -/
def digitsToNat (ds : List Char) : Nat :=
  ds.foldl (fun a c => a * 10 + digitVal c) 0

/-- Exact value of a parsed decimal: `±digits · 10^exp10`. -/
def decToRat (neg : Bool) (ds : List Char) (exp10 : Int) : ℚ :=
  let n : ℤ := (digitsToNat ds : ℕ)
  let signed : ℤ := if neg then -n else n
  if 0 ≤ exp10 then mkRat (signed * ((10 : ℕ) ^ exp10.toNat : ℕ)) 1
  else mkRat signed ((10 : ℕ) ^ (-exp10).toNat)

/-- Magnitudes ParseFloat reports as ErrRange: at or beyond the float64
overflow rounding boundary `2^1024 − 2^970`, or nonzero at or below the
underflow-to-zero boundary `2^-1075`. -/
def float64OutOfRange (q : ℚ) : Bool :=
  let a := if q < 0 then -q else q
  ((((2 : ℕ) ^ 1024 - (2 : ℕ) ^ 970 : ℕ) : ℤ) * (a.den : ℤ) ≤ a.num) ||
  (q ≠ 0 && a.num * (((2 : ℕ) ^ 1075 : ℕ) : ℤ) ≤ (a.den : ℤ))

/-- The optional leading sign: (negative, rest). -/
def splitSign : List Char → Bool × List Char
  | '+' :: r => (false, r)
  | '-' :: r => (true, r)
  | r => (false, r)

/-- Decimal mantissa and exponent, Go style: digits, optional '.', digits
(at least one digit overall), optional 'e'/'E' with signed digits; the whole
input must be consumed.  Out-of-range magnitudes fail like ErrRange. -/
def parseDecimal (neg : Bool) (cs : List Char) : Option GoFloat :=
  let ip := cs.takeWhile Char.isDigit
  let r1 := cs.dropWhile Char.isDigit
  let hasDot : Bool := match r1 with | '.' :: _ => true | _ => false
  let afterDot := match r1 with | '.' :: r => r | r => r
  let fp := if hasDot then afterDot.takeWhile Char.isDigit else []
  let r2 := if hasDot then afterDot.dropWhile Char.isDigit else r1
  if ip.isEmpty && fp.isEmpty then none
  else
    let mantissa := ip ++ fp
    let finish : Int → Option GoFloat := fun e =>
      let q := decToRat neg mantissa (e - fp.length)
      if float64OutOfRange q then none else some (.num q)
    match r2 with
    | [] => finish 0
    | e :: r3 =>
      if e = 'e' ∨ e = 'E' then
        let (eneg, r4) := splitSign r3
        let ed := r4.takeWhile Char.isDigit
        let r5 := r4.dropWhile Char.isDigit
        if ed.isEmpty || !r5.isEmpty then none
        else finish (if eneg then -(digitsToNat ed : Int) else (digitsToNat ed : Int))
      else none

/-- `strconv.ParseFloat(s, 64)`, as a partial function: `none` when Go
returns a non-nil error (syntax or range). -/
def parseFloat? (s : String) : Option GoFloat :=
  let cs := s.data
  let (neg, rest) := splitSign cs
  let low := rest.map goCharToLower
  if low = "inf".data ∨ low = "infinity".data then some (.inf neg)
  else if cs.map goCharToLower = "nan".data then some .nan
  else parseDecimal neg rest

/-! ## time.Parse with layout "2006/01/02:15:04:05" -/

/-- main.go: `const oracleDate = "2006/01/02:15:04:05"`. -/
def oracleDate : String := "2006/01/02:15:04:05"

/-- The six fields `time.Parse` extracts for the `oracleDate` layout. -/
structure GoDateTime where
  year : Nat
  month : Nat
  day : Nat
  hour : Nat
  minute : Nat
  second : Nat
deriving DecidableEq

/-- Go `time` package `getnum`: one or two digits (`fixed` forces two). -/
def getnum2 (fixed : Bool) : List Char → Option (Nat × List Char)
  | c1 :: c2 :: rest =>
    if c1.isDigit then
      if c2.isDigit then some (digitVal c1 * 10 + digitVal c2, rest)
      else if fixed then none else some (digitVal c1, c2 :: rest)
    else none
  | [c1] => if c1.isDigit && !fixed then some (digitVal c1, []) else none
  | [] => none

/-- The layout's `2006` chunk: exactly four digits of year. -/
def parseYear4 : List Char → Option (Nat × List Char)
  | a :: b :: c :: d :: rest =>
    if a.isDigit && b.isDigit && c.isDigit && d.isDigit then
      some (digitsToNat [a, b, c, d], rest)
    else none
  | _ => none

/-- A required literal layout character. -/
def expectChar (c : Char) : List Char → Option (List Char)
  | c1 :: rest => if c1 = c then some rest else none
  | [] => none

/-- Leap years of the proleptic Gregorian calendar, as Go computes them. -/
def goIsLeap (y : Nat) : Bool :=
  y % 4 == 0 && (y % 100 != 0 || y % 400 == 0)

/-- Go `daysIn(m, year)`. -/
def goDaysIn (m y : Nat) : Nat :=
  if m = 2 then (if goIsLeap y then 29 else 28)
  else if m = 4 ∨ m = 6 ∨ m = 9 ∨ m = 11 then 30
  else 31

/-- `time.Parse(oracleDate, s)`: the fixed Y/M/D:H:M:S shape with Go's range
checks (month 1–12, day valid for the month, hour 0–23, minute and second
0–59) and full consumption of the input.  No zone appears in the layout, so
Go interprets the fields in UTC. -/
def parseOracleDate? (s : String) : Option GoDateTime := do
  let cs := s.data
  let (y, cs) ← parseYear4 cs
  let cs ← expectChar '/' cs
  let (mo, cs) ← getnum2 true cs
  let cs ← expectChar '/' cs
  let (d, cs) ← getnum2 true cs
  let cs ← expectChar ':' cs
  let (h, cs) ← getnum2 false cs
  let cs ← expectChar ':' cs
  let (mi, cs) ← getnum2 true cs
  let cs ← expectChar ':' cs
  let (se, cs) ← getnum2 true cs
  if !cs.isEmpty then none
  else if 1 ≤ mo ∧ mo ≤ 12 ∧ 1 ≤ d ∧ d ≤ goDaysIn mo y ∧ h ≤ 23 ∧ mi ≤ 59 ∧ se ≤ 59 then
    some ⟨y, mo, d, h, mi, se⟩
  else none

/-- Days between 1970-01-01 and year/month/day of the proleptic Gregorian
calendar (civil-from-days inverse, floor division throughout). -/
def daysFromCivil (y : Int) (m d : Int) : Int :=
  let ys := if m ≤ 2 then y - 1 else y
  let era := Int.fdiv ys 400
  let yoe := ys - era * 400
  let mp := Int.emod (m + 9) 12
  let doy := Int.fdiv (153 * mp + 2) 5 + d - 1
  let doe := yoe * 365 + Int.fdiv yoe 4 - Int.fdiv yoe 100 + doy
  era * 146097 + doe - 719468

/-- `t.Unix()` for the parsed fields: seconds since the epoch with the fields
read as UTC (which is what `time.Parse` without a zone indicator yields). -/
def goUnix (t : GoDateTime) : Int :=
  daysFromCivil t.year t.month t.day * 86400 +
    3600 * t.hour + 60 * t.minute + t.second

/-- What an epoch value would be if the same fields were instead interpreted
in a fixed-offset local zone (offset in seconds east of UTC) — the reading
the source comment "using timezone of the box" describes. -/
def localUnix (offsetSeconds : Int) (t : GoDateTime) : Int :=
  goUnix t - offsetSeconds

/-! ## The value cascade of ScrapeGenericValues -/

/-- The per-column value resolution of `ScrapeGenericValues`:
`strconv.ParseFloat(strings.TrimSpace(raw), 64)`; on error,
`time.Parse(oracleDate, strings.TrimSpace(raw))` and `float64(t.Unix())`;
on a second error the column is skipped (`none`). -/
def parseMetricValue (raw : String) : Option GoFloat :=
  match parseFloat? (goTrimSpace raw) with
  | some v => some v
  | none =>
    match parseOracleDate? (goTrimSpace raw) with
    | some t => some (.num ((goUnix t : ℤ) : ℚ))
    | none => none

/-! ## Rows and string maps

Go maps from string to string appear as association lists; `mapInsert`
overwrites like a Go map assignment, `rowGet` returns the zero value `""`
for an absent key like a Go map read.  Iteration order of `metricsDesc`
(randomised by Go) is fixed to list order. -/

/-- A Go `map[string]string`. -/
abbrev RowMap := List (String × String)

/-- Presence-aware read: `v, ok := m[k]`. -/
def mapLookup (m : RowMap) (k : String) : Option String :=
  (m.find? fun p => p.1 == k).map (·.2)

/-- Zero-value read: `m[k]` (the empty string when `k` is absent). -/
def rowGet (m : RowMap) (k : String) : String :=
  (mapLookup m k).getD ""

/-- Map assignment `m[k] = v`: overwrite, else append. -/
def mapInsert (m : RowMap) (k v : String) : RowMap :=
  if (m.find? fun p => p.1 == k).isSome then
    m.map fun p => if p.1 == k then (k, v) else p
  else m ++ [(k, v)]

/-- GeneratePrometheusMetrics' row map: `m[strings.ToLower(colName)] =
fmt.Sprintf("%v", *val)`; the driver's rendered values are supplied as
strings. -/
def buildRowMap (cols : List String) (vals : List String) : RowMap :=
  (cols.zip vals).foldl (fun m cv => mapInsert m (goToLower cv.1) cv.2) []

/-! ## GetMetricType -/

/-- `prometheus.ValueType`: the two kinds the exporter maps to. -/
inductive ValueType where
  | gauge
  | counter
deriving DecidableEq

/-- main.go `GetMetricType`: an absent entry defaults to gauge; a present
entry must (lower-cased) name gauge or counter, anything else hits
`log.Fatalf` — modelled as `none`. -/
def getMetricType (metricType : String) (metricsType : RowMap) : Option ValueType :=
  match mapLookup metricsType (goToLower metricType) with
  | none => some .gauge
  | some strType =>
    match goToLower strType with
    | "gauge" => some .gauge
    | "counter" => some .counter
    | _ => none

/-- A `metricsType` table that never triggers `GetMetricType`'s
`log.Fatalf`: every declared type (lower-cased) is gauge or counter. -/
def WellTyped (metricsType : RowMap) : Prop :=
  ∀ p ∈ metricsType, goToLower p.2 = "gauge" ∨ goToLower p.2 = "counter"

instance : DecidablePred WellTyped := fun mt =>
  inferInstanceAs (Decidable (∀ p ∈ mt, _ ∨ _))

/-! ## The Value Mapper (the genericParser closure of ScrapeGenericValues) -/

/-- One emitted Prometheus const metric: name and help of its Desc, the
label names and positional label values, the value type and the value. -/
structure Sample where
  name : String
  help : String
  labelNames : List String
  labelValues : List String
  type : ValueType
  value : GoFloat
deriving DecidableEq

/-- The closure state of `ScrapeGenericValues`: the metrics sent to the
channel so far and the `metricsCount` counter. -/
structure GPState where
  samples : List Sample
  metricsCount : Nat
deriving DecidableEq

/-- The distinct error values the scrape of one Metric Definition can
return, one constructor per Go error source. -/
inductive ScrapeErr where
  | timedOut
  | queryFailed (msg : String)
  | scanFailed (msg : String)
  | noMetricsFound
deriving DecidableEq

/-- The label-value tuple of every sample of a row: the row's values for all
labels but the last (`labels[:len(labels)-1]`, empty string for an absent
column) with the target identifier `env` appended.  (Go panics when
`labels` is empty; `NewExporter` guarantees at least the appended "sid".) -/
def buildLabelValues (labels : List String) (row : RowMap) (env : String) : List String :=
  labels.dropLast.map (fun label => rowGet row label) ++ [env]

/-- One `metricsDesc` entry of the inner loop: `none` when the value parses
neither as float nor as oracle date (the column is skipped); `.error ()`
when `GetMetricType` hits `log.Fatalf`; otherwise the emitted sample. -/
def emitOne (context : String) (labels : List String) (metricsType : RowMap)
    (fieldToAppend : String) (lvs : List String) (row : RowMap)
    (entry : String × String) : Except Unit (Option Sample) :=
  match parseMetricValue (rowGet row entry.1) with
  | none => .ok none
  | some value =>
    match getMetricType entry.1 metricsType with
    | none => .error ()
    | some ty =>
      let nm :=
        if fieldToAppend = "" then
          goBuildFQName oracledbNamespace context entry.1
        else
          goBuildFQName oracledbNamespace context (cleanName (rowGet row fieldToAppend))
      .ok (some { name := nm, help := entry.2, labelNames := labels,
                  labelValues := lvs, type := ty, value := value })

/-- The `for metric, metricHelp := range metricsDesc` loop over one row. -/
def runEntries (context : String) (labels : List String) (metricsType : RowMap)
    (fieldToAppend : String) (lvs : List String) (row : RowMap) :
    List (String × String) → GPState → Except Unit GPState
  | [], st => .ok st
  | entry :: rest, st =>
    match emitOne context labels metricsType fieldToAppend lvs row entry with
    | .error () => .error ()
    | .ok none => runEntries context labels metricsType fieldToAppend lvs row rest st
    | .ok (some s) =>
      runEntries context labels metricsType fieldToAppend lvs row rest
        { samples := st.samples ++ [s], metricsCount := st.metricsCount + 1 }

/-- The `genericParser` closure: builds the label values, then walks
`metricsDesc`; it always returns a nil error (second component `none`). -/
def genericParser (context : String) (labels : List String)
    (metricsDesc metricsType : RowMap) (fieldToAppend : String) (env : String)
    (row : RowMap) (st : GPState) : Except Unit (GPState × Option ScrapeErr) :=
  let lvs := buildLabelValues labels row env
  match runEntries context labels metricsType fieldToAppend lvs row metricsDesc st with
  | .error () => .error ()
  | .ok st => .ok (st, none)

/-! ## The Row Decoder (GeneratePrometheusMetrics) -/

instance {ε α : Type} [DecidableEq ε] [DecidableEq α] : DecidableEq (Except ε α) := fun a b =>
  match a, b with
  | .error e, .error f =>
    if h : e = f then isTrue (congrArg Except.error h)
    else isFalse (fun hc => h (by injection hc))
  | .ok x, .ok y =>
    if h : x = y then isTrue (congrArg Except.ok h)
    else isFalse (fun hc => h (by injection hc))
  | .error _, .ok _ => isFalse (fun hc => Except.noConfusion hc)
  | .ok _, .error _ => isFalse (fun hc => Except.noConfusion hc)

/-- The outcome of one `db.QueryContext` call, as the decoder observes it:
whether `ctx.Err() == context.DeadlineExceeded` at the check, the query
error, the result of `rows.Columns()`, and the successive rows (each either
scanned values — already rendered to strings — or a scan error). -/
structure QueryResult where
  deadlineExceeded : Bool
  queryErr : Option String
  columns : Except String (List String)
  rows : List (Except String (List String))
deriving DecidableEq

/-- The `for rows.Next()` loop: scan each row, build its lower-cased column
map, hand it to `parse`; a scan error or a parse error returns
immediately. -/
def gpmLoop (cols : List String)
    (parse : RowMap → GPState → Except Unit (GPState × Option ScrapeErr)) :
    List (Except String (List String)) → GPState → Except Unit (GPState × Option ScrapeErr)
  | [], st => .ok (st, none)
  | .error e :: _, st => .ok (st, some (.scanFailed e))
  | .ok vals :: rest, st =>
    match parse (buildRowMap cols vals) st with
    | .error () => .error ()
    | .ok (st', some e) => .ok (st', some e)
    | .ok (st', none) => gpmLoop cols parse rest st'

/-- main.go `GeneratePrometheusMetrics`: deadline check first, then the
query error; the error of `rows.Columns()` is assigned but never checked
(`cols` is empty when it failed), and the function ends in `return nil`. -/
def generatePrometheusMetrics (qr : QueryResult)
    (parse : RowMap → GPState → Except Unit (GPState × Option ScrapeErr))
    (st : GPState) : Except Unit (GPState × Option ScrapeErr) :=
  if qr.deadlineExceeded then .ok (st, some .timedOut)
  else
    match qr.queryErr with
    | some e => .ok (st, some (.queryFailed e))
    | none =>
      let cols := match qr.columns with | .ok cs => cs | .error _ => []
      gpmLoop cols parse qr.rows st

/-- main.go `ScrapeGenericValues`: run the decoder with the genericParser
closure over a fresh state; on a nil decoder error, report
`noMetricsFound` when nothing was counted and zero results are not
ignored.  (`request` is the SQL text; its execution's outcome is `qr`.) -/
def scrapeGenericValues (env context : String) (labels : List String)
    (metricsDesc metricsType : RowMap) (fieldToAppend : String)
    (ignoreZeroResult : Bool) (request : String) (qr : QueryResult) :
    Except Unit (GPState × Option ScrapeErr) :=
  match generatePrometheusMetrics qr
      (genericParser context labels metricsDesc metricsType fieldToAppend env)
      { samples := [], metricsCount := 0 } with
  | .error () => .error ()
  | .ok (st, some e) => .ok (st, some e)
  | .ok (st, none) =>
    if !ignoreZeroResult && st.metricsCount == 0 then .ok (st, some .noMetricsFound)
    else .ok (st, none)

/-! ## The Scrape Orchestrator (scrapeEnv) -/

/-- main.go `Metric`: one declarative Metric Definition.  (`labels` is the
list after `NewExporter` appended the reserved "sid" entry when the claim
concerns the running pipeline.) -/
structure MetricDef where
  context : String
  labels : List String
  metricsType : RowMap
  metricsDesc : RowMap
  fieldToAppend : String
  request : String
  ignoreZeroResult : Bool
deriving DecidableEq

/-- `NewExporter`'s label preparation: "adding env label to all metrics" —
the reserved target-identifier slot is appended to every definition. -/
def newExporterLabels (labels : List String) : List String :=
  labels ++ ["sid"]

/-- main.go `ScrapeMetric`: unpack the definition into
`ScrapeGenericValues`. -/
def scrapeMetric (env : String) (m : MetricDef) (qr : QueryResult) :
    Except Unit (GPState × Option ScrapeErr) :=
  scrapeGenericValues env m.context m.labels m.metricsDesc m.metricsType
    m.fieldToAppend m.ignoreZeroResult m.request qr

/-- The database-facing behaviour one scrape cycle observes for a target:
the ping outcome on the current handle, the `sql.Open` outcome should a
reconnect be attempted, and one query outcome per Metric Definition. -/
structure EnvBehavior where
  pingErr : Option String
  openErr : Option String
  queryResults : List QueryResult
deriving DecidableEq

/-- Connection operations, for the scrape's trace.  Handle 0 is the handle
the scrape starts with; handle 1 the one a reconnect produces. -/
inductive DbOp where
  | ping (handle : Nat)
  | reopen
  | closeHandle (handle : Nat)
  | runQuery (handle : Nat) (request : String)
deriving DecidableEq

/-- The mutable state of scrapeEnv's metric loop: emitted samples, the
`scrapeErrors` counter increments (context, sid), the queries run, and
whether the `err` variable currently holds a non-nil error. -/
structure LoopSt where
  samples : List Sample
  incs : List (String × String)
  queries : List DbOp
  hasErr : Bool
deriving DecidableEq

/-- `for _, metric := range e.metricsToScrap`: each definition is scraped in
order; an error increments `scrapeErrors` for (context, sid) and the loop
continues; `err` is overwritten on every iteration. -/
def scrapeLoop (sid : String) (handle : Nat) :
    List (MetricDef × QueryResult) → LoopSt → Except Unit LoopSt
  | [], st => .ok st
  | (m, qr) :: rest, st =>
    match scrapeMetric sid m qr with
    | .error () => .error ()
    | .ok (gst, oe) =>
      scrapeLoop sid handle rest
        { samples := st.samples ++ gst.samples,
          incs := st.incs ++ (if oe.isSome then [(m.context, sid)] else []),
          queries := st.queries ++ [.runQuery handle m.request],
          hasErr := oe.isSome }

/-- Everything one `scrapeEnv` call does that the rest of the system can
see: counter/gauge updates, samples sent to the channel, and the trace of
database operations. -/
structure ScrapeOutcome where
  totalScrapesInc : Nat
  durationRecorded : Bool
  errGauge : Nat
  upGauge : Option Nat
  scrapeErrorIncs : List (String × String)
  samples : List Sample
  trace : List DbOp
deriving DecidableEq

/-- The reconnect trigger: `strings.Contains(err.Error(), "sql: database is
closed")`. -/
def isClosedErr (msg : String) : Bool :=
  goContains msg "sql: database is closed"

/-- The tail of scrapeEnv once a usable handle is settled on: `up` is set
to 1 and every definition is scraped; the deferred function then records the
duration and sets the error gauge from the final value of `err`. -/
def scrapeEnvRun (sid : String) (metrics : List MetricDef) (beh : EnvBehavior)
    (handle : Nat) (trace0 : List DbOp) (hasErr0 : Bool) : Except Unit ScrapeOutcome :=
  match scrapeLoop sid handle (metrics.zip beh.queryResults)
      { samples := [], incs := [], queries := [], hasErr := hasErr0 } with
  | .error () => .error ()
  | .ok st =>
    .ok { totalScrapesInc := 1, durationRecorded := true,
          errGauge := if st.hasErr then 1 else 0,
          upGauge := some 1,
          scrapeErrorIncs := st.incs,
          samples := st.samples,
          trace := trace0 ++ st.queries }

/-- main.go `scrapeEnv` (lines 179–220): ping the handle; only a ping error
containing the "database is closed" signature triggers a reconnect, whose
own failure sets `up` to 0, closes the (freshly opened) handle and returns
before any definition runs.  Every other path — including a ping failure
with any other message — falls through to `up = 1` and the metric loop. -/
def scrapeEnv (sid : String) (metrics : List MetricDef) (beh : EnvBehavior) :
    Except Unit ScrapeOutcome :=
  match beh.pingErr with
  | none => scrapeEnvRun sid metrics beh 0 [.ping 0] false
  | some msg =>
    if isClosedErr msg then
      match beh.openErr with
      | some _ =>
        .ok { totalScrapesInc := 1, durationRecorded := true,
              errGauge := 1, upGauge := some 0, scrapeErrorIncs := [],
              samples := [], trace := [.ping 0, .reopen, .closeHandle 1] }
      | none => scrapeEnvRun sid metrics beh 1 [.ping 0, .reopen] false
    else
      scrapeEnvRun sid metrics beh 0 [.ping 0] true

/-! ## Spec-side definitions

Definitions following the claim wording rather than the source, named
`spec…`, for refutation by comparison with the source-derived model. -/

/-- C5's sanitizer as the claim words it: "lower-cases the value and strips
(removes) spaces, parentheses, and slashes". -/
def specSanitize (s : String) : String :=
  goToLower (String.mk (s.data.filter fun c =>
    !(c = ' ' ∨ c = '(' ∨ c = ')' ∨ c = '/')))

/-! ## Helper lemmas -/

theorem mapLookup_mem {mt : RowMap} {k v : String} (h : mapLookup mt k = some v) :
    ∃ p ∈ mt, p.2 = v := by
  unfold mapLookup at h
  rcases Option.map_eq_some'.mp h with ⟨p, hp, hv⟩
  exact ⟨p, List.mem_of_find?_eq_some hp, hv⟩

theorem getMetricType_isSome {mt : RowMap} (hw : WellTyped mt) (k : String) :
    (getMetricType k mt).isSome := by
  unfold getMetricType
  cases h : mapLookup mt (goToLower k) with
  | none => rfl
  | some v =>
    rcases mapLookup_mem h with ⟨p, hmem, hv⟩
    rcases hw p hmem with h1 | h1 <;> rw [hv] at h1 <;> simp [h1]

section ValueMapper

variable (context : String) (labels : List String) (metricsType : RowMap)
variable (fieldToAppend : String) (lvs : List String) (row : RowMap)

/-- The samples one row's `metricsDesc` walk emits, in order. -/
def entrySamples (entries : List (String × String)) : List Sample :=
  entries.filterMap fun e =>
    match emitOne context labels metricsType fieldToAppend lvs row e with
    | .ok (some s) => some s
    | _ => none

theorem emitOne_ok (hw : WellTyped metricsType) (e : String × String) :
    ∃ o, emitOne context labels metricsType fieldToAppend lvs row e = .ok o := by
  unfold emitOne
  cases hpm : parseMetricValue (rowGet row e.1) with
  | none => exact ⟨none, rfl⟩
  | some v =>
    cases hty : getMetricType e.1 metricsType with
    | none =>
      have := getMetricType_isSome hw e.1
      rw [hty] at this
      cases this
    | some ty => exact ⟨some _, rfl⟩

theorem runEntries_eq (hw : WellTyped metricsType) :
    ∀ (entries : List (String × String)) (st : GPState),
      runEntries context labels metricsType fieldToAppend lvs row entries st =
        .ok { samples := st.samples ++
                entrySamples context labels metricsType fieldToAppend lvs row entries,
              metricsCount := st.metricsCount +
                (entrySamples context labels metricsType fieldToAppend lvs row entries).length } := by
  intro entries
  induction entries with
  | nil => intro st; simp [runEntries, entrySamples]
  | cons e rest ih =>
    intro st
    rcases emitOne_ok context labels metricsType fieldToAppend lvs row hw e with ⟨o, ho⟩
    cases o with
    | none =>
      simp only [runEntries, ho, ih st]
      simp [entrySamples, List.filterMap_cons, ho]
    | some s =>
      simp only [runEntries, ho,
        ih { samples := st.samples ++ [s], metricsCount := st.metricsCount + 1 }]
      simp [entrySamples, List.filterMap_cons, ho]
      omega

end ValueMapper

/-- The samples emitted for one row of a query: `entrySamples` with the
label values the genericParser builds for that row. -/
def rowSamples (context : String) (labels : List String)
    (metricsDesc metricsType : RowMap) (fieldToAppend env : String)
    (row : RowMap) : List Sample :=
  entrySamples context labels metricsType fieldToAppend
    (buildLabelValues labels row env) row metricsDesc

theorem genericParser_eq {metricsType : RowMap} (hw : WellTyped metricsType)
    (context : String) (labels : List String) (metricsDesc : RowMap)
    (fieldToAppend env : String) (row : RowMap) (st : GPState) :
    genericParser context labels metricsDesc metricsType fieldToAppend env row st =
      .ok ({ samples := st.samples ++
               rowSamples context labels metricsDesc metricsType fieldToAppend env row,
             metricsCount := st.metricsCount +
               (rowSamples context labels metricsDesc metricsType fieldToAppend env row).length },
           none) := by
  simp only [genericParser, rowSamples,
    runEntries_eq context labels metricsType fieldToAppend
      (buildLabelValues labels row env) row hw metricsDesc st]

theorem genericParser_nil_err (context : String) (labels : List String)
    (metricsDesc metricsType : RowMap) (fieldToAppend env : String)
    (row : RowMap) (st : GPState) {r : GPState × Option ScrapeErr}
    (h : genericParser context labels metricsDesc metricsType fieldToAppend env row st = .ok r) :
    r.2 = none := by
  simp only [genericParser] at h
  cases hr : runEntries context labels metricsType fieldToAppend
      (buildLabelValues labels row env) row metricsDesc st with
  | error u => simp only [hr] at h; cases h
  | ok st' => simp only [hr] at h; cases h; rfl

theorem gpmLoop_ok_rows {metricsType : RowMap} (hw : WellTyped metricsType)
    (cols : List String) (context : String) (labels : List String)
    (metricsDesc : RowMap) (fieldToAppend env : String) :
    ∀ (valsList : List (List String)) (st : GPState),
      gpmLoop cols (genericParser context labels metricsDesc metricsType fieldToAppend env)
          (valsList.map .ok) st =
        .ok ({ samples := st.samples ++ valsList.flatMap (fun v =>
                 rowSamples context labels metricsDesc metricsType fieldToAppend env
                   (buildRowMap cols v)),
               metricsCount := st.metricsCount + (valsList.flatMap (fun v =>
                 rowSamples context labels metricsDesc metricsType fieldToAppend env
                   (buildRowMap cols v))).length },
             none) := by
  intro valsList
  induction valsList with
  | nil => intro st; simp [gpmLoop]
  | cons v rest ih =>
    intro st
    simp only [List.map_cons, gpmLoop,
      genericParser_eq hw context labels metricsDesc fieldToAppend env (buildRowMap cols v) st]
    rw [ih]
    simp [List.flatMap_cons, List.append_assoc]
    omega

theorem gpmLoop_scan_err {metricsType : RowMap} (hw : WellTyped metricsType)
    (cols : List String) (context : String) (labels : List String)
    (metricsDesc : RowMap) (fieldToAppend env : String)
    (e : String) (rest : List (Except String (List String))) :
    ∀ (valsList : List (List String)) (st : GPState),
      gpmLoop cols (genericParser context labels metricsDesc metricsType fieldToAppend env)
          (valsList.map .ok ++ .error e :: rest) st =
        .ok ({ samples := st.samples ++ valsList.flatMap (fun v =>
                 rowSamples context labels metricsDesc metricsType fieldToAppend env
                   (buildRowMap cols v)),
               metricsCount := st.metricsCount + (valsList.flatMap (fun v =>
                 rowSamples context labels metricsDesc metricsType fieldToAppend env
                   (buildRowMap cols v))).length },
             some (.scanFailed e)) := by
  intro valsList
  induction valsList with
  | nil => intro st; simp [gpmLoop]
  | cons v vrest ih =>
    intro st
    simp only [List.map_cons, List.cons_append, gpmLoop,
      genericParser_eq hw context labels metricsDesc fieldToAppend env (buildRowMap cols v) st]
    simp only [List.append_eq]
    rw [ih]
    simp [List.flatMap_cons, List.append_assoc]
    omega

theorem gpmLoop_err_shape (cols : List String) (context : String) (labels : List String)
    (metricsDesc metricsType : RowMap) (fieldToAppend env : String) :
    ∀ (rows : List (Except String (List String))) (st st' : GPState)
      (oe : Option ScrapeErr),
      gpmLoop cols (genericParser context labels metricsDesc metricsType fieldToAppend env)
          rows st = .ok (st', oe) →
      oe = none ∨ ∃ m, oe = some (.scanFailed m) := by
  intro rows
  induction rows with
  | nil =>
    intro st st' oe h
    cases h
    exact .inl rfl
  | cons r rest ih =>
    intro st st' oe h
    cases r with
    | error m =>
      simp only [gpmLoop] at h
      cases h
      exact .inr ⟨m, rfl⟩
    | ok vals =>
      simp only [gpmLoop] at h
      cases hp : genericParser context labels metricsDesc metricsType fieldToAppend env
          (buildRowMap cols vals) st with
      | error u => simp only [hp] at h; cases h
      | ok r' =>
        have h2 := genericParser_nil_err context labels metricsDesc metricsType
          fieldToAppend env (buildRowMap cols vals) st hp
        cases r' with
        | mk st'' oe' =>
          simp only at h2
          subst h2
          simp only [hp] at h
          exact ih st'' st' oe h

theorem scrapeGenericValues_of_gpm {env context : String} {labels : List String}
    {metricsDesc metricsType : RowMap} {fieldToAppend : String}
    (ignoreZeroResult : Bool) (request : String) {qr : QueryResult} {st : GPState}
    (h : generatePrometheusMetrics qr
        (genericParser context labels metricsDesc metricsType fieldToAppend env)
        { samples := [], metricsCount := 0 } = .ok (st, none)) :
    scrapeGenericValues env context labels metricsDesc metricsType fieldToAppend
        ignoreZeroResult request qr =
      .ok (st, if !ignoreZeroResult && st.metricsCount == 0 then some .noMetricsFound
               else none) := by
  unfold scrapeGenericValues
  rw [h]
  cases hc : !ignoreZeroResult && st.metricsCount == 0 <;> simp [hc]

theorem scrapeLoop_queries (sid : String) (handle : Nat) :
    ∀ (pairs : List (MetricDef × QueryResult)) (st st' : LoopSt),
      scrapeLoop sid handle pairs st = .ok st' →
      st'.queries = st.queries ++ pairs.map (fun p => DbOp.runQuery handle p.1.request) := by
  intro pairs
  induction pairs with
  | nil => intro st st' h; cases h; simp
  | cons p rest ih =>
    intro st st' h
    cases p with
    | mk m qr =>
      simp only [scrapeLoop] at h
      cases hsm : scrapeMetric sid m qr with
      | error u => simp only [hsm] at h; cases h
      | ok r =>
        cases r with
        | mk gst oe =>
          simp only [hsm] at h
          rw [ih _ _ h]
          simp [List.append_assoc]

theorem scrapeLoop_incs (sid : String) (handle : Nat) :
    ∀ (pairs : List (MetricDef × QueryResult)) (st st' : LoopSt),
      scrapeLoop sid handle pairs st = .ok st' →
      st'.incs = st.incs ++ pairs.filterMap (fun p =>
        match scrapeMetric sid p.1 p.2 with
        | .ok (_, some _) => some (p.1.context, sid)
        | _ => none) := by
  intro pairs
  induction pairs with
  | nil => intro st st' h; cases h; simp
  | cons p rest ih =>
    intro st st' h
    cases p with
    | mk m qr =>
      simp only [scrapeLoop] at h
      cases hsm : scrapeMetric sid m qr with
      | error u => simp only [hsm] at h; cases h
      | ok r =>
        cases r with
        | mk gst oe =>
          simp only [hsm] at h
          rw [ih _ _ h]
          cases oe <;> simp [List.filterMap_cons, hsm, List.append_assoc]

theorem scrapeLoop_hasErr_last (sid : String) (handle : Nat) :
    ∀ (pairs : List (MetricDef × QueryResult)) (p : MetricDef × QueryResult)
      (st st' : LoopSt),
      scrapeLoop sid handle (pairs ++ [p]) st = .ok st' →
      ∃ gst oe, scrapeMetric sid p.1 p.2 = .ok (gst, oe) ∧ st'.hasErr = oe.isSome := by
  intro pairs
  induction pairs with
  | nil =>
    intro p st st' h
    cases p with
    | mk m qr =>
      simp only [List.nil_append, scrapeLoop] at h
      cases hsm : scrapeMetric sid m qr with
      | error u => simp only [hsm] at h; cases h
      | ok r =>
        cases r with
        | mk gst oe =>
          simp only [hsm] at h
          cases h
          exact ⟨gst, oe, rfl, rfl⟩
  | cons q rest ih =>
    intro p st st' h
    cases q with
    | mk m qr =>
      simp only [List.cons_append, scrapeLoop] at h
      cases hsm : scrapeMetric sid m qr with
      | error u => simp only [hsm] at h; cases h
      | ok r =>
        cases r with
        | mk gst oe =>
          simp only [hsm] at h
          exact ih p _ st' h

theorem scrapeEnvRun_ok {sid : String} {metrics : List MetricDef} {beh : EnvBehavior}
    {handle : Nat} {trace0 : List DbOp} {hasErr0 : Bool} {out : ScrapeOutcome}
    (h : scrapeEnvRun sid metrics beh handle trace0 hasErr0 = .ok out) :
    ∃ st, scrapeLoop sid handle (metrics.zip beh.queryResults)
        { samples := [], incs := [], queries := [], hasErr := hasErr0 } = .ok st ∧
      out = { totalScrapesInc := 1, durationRecorded := true,
              errGauge := if st.hasErr then 1 else 0,
              upGauge := some 1, scrapeErrorIncs := st.incs,
              samples := st.samples, trace := trace0 ++ st.queries } := by
  unfold scrapeEnvRun at h
  cases hl : scrapeLoop sid handle (metrics.zip beh.queryResults)
      { samples := [], incs := [], queries := [], hasErr := hasErr0 } with
  | error u => rw [hl] at h; cases h
  | ok st => rw [hl] at h; cases h; exact ⟨st, rfl, rfl⟩

theorem scrapeEnv_ping_none {sid : String} {metrics : List MetricDef}
    {beh : EnvBehavior} (hp : beh.pingErr = none) :
    scrapeEnv sid metrics beh = scrapeEnvRun sid metrics beh 0 [.ping 0] false := by
  unfold scrapeEnv
  rw [hp]

theorem scrapeEnv_ping_other {sid : String} {metrics : List MetricDef}
    {beh : EnvBehavior} {msg : String} (hp : beh.pingErr = some msg)
    (hc : isClosedErr msg = false) :
    scrapeEnv sid metrics beh = scrapeEnvRun sid metrics beh 0 [.ping 0] true := by
  unfold scrapeEnv
  rw [hp]
  simp [hc]

theorem scrapeEnv_closed_openFail {sid : String} {metrics : List MetricDef}
    {beh : EnvBehavior} {msg e : String} (hp : beh.pingErr = some msg)
    (hc : isClosedErr msg = true) (ho : beh.openErr = some e) :
    scrapeEnv sid metrics beh =
      .ok { totalScrapesInc := 1, durationRecorded := true,
            errGauge := 1, upGauge := some 0, scrapeErrorIncs := [],
            samples := [], trace := [.ping 0, .reopen, .closeHandle 1] } := by
  unfold scrapeEnv
  rw [hp]
  simp [hc, ho]

theorem scrapeEnv_closed_openOk {sid : String} {metrics : List MetricDef}
    {beh : EnvBehavior} {msg : String} (hp : beh.pingErr = some msg)
    (hc : isClosedErr msg = true) (ho : beh.openErr = none) :
    scrapeEnv sid metrics beh = scrapeEnvRun sid metrics beh 1 [.ping 0, .reopen] false := by
  unfold scrapeEnv
  rw [hp]
  simp [hc, ho]

theorem gpm_deadline {qr : QueryResult}
    (parse : RowMap → GPState → Except Unit (GPState × Option ScrapeErr))
    (st : GPState) (hd : qr.deadlineExceeded = true) :
    generatePrometheusMetrics qr parse st = .ok (st, some .timedOut) := by
  unfold generatePrometheusMetrics
  rw [hd]
  rfl

theorem gpm_queryErr {qr : QueryResult} {e : String}
    (parse : RowMap → GPState → Except Unit (GPState × Option ScrapeErr))
    (st : GPState) (hd : qr.deadlineExceeded = false) (hq : qr.queryErr = some e) :
    generatePrometheusMetrics qr parse st = .ok (st, some (.queryFailed e)) := by
  unfold generatePrometheusMetrics
  rw [hd, hq]
  rfl

theorem gpm_rows {qr : QueryResult}
    (parse : RowMap → GPState → Except Unit (GPState × Option ScrapeErr))
    (st : GPState) (hd : qr.deadlineExceeded = false) (hq : qr.queryErr = none) :
    generatePrometheusMetrics qr parse st =
      gpmLoop (match qr.columns with | .ok cs => cs | .error _ => []) parse qr.rows st := by
  unfold generatePrometheusMetrics
  rw [hd, hq]
  simp

theorem emitOne_some_shape {context : String} {labels : List String}
    {metricsType : RowMap} {fieldToAppend : String} {lvs : List String}
    {row : RowMap} {e : String × String} {s : Sample}
    (h : emitOne context labels metricsType fieldToAppend lvs row e = .ok (some s)) :
    s.labelValues = lvs ∧ s.labelNames = labels ∧
    s.name = goBuildFQName oracledbNamespace context
      (if fieldToAppend = "" then e.1 else cleanName (rowGet row fieldToAppend)) := by
  unfold emitOne at h
  cases hpm : parseMetricValue (rowGet row e.1) with
  | none => rw [hpm] at h; simp at h
  | some v =>
    rw [hpm] at h
    cases hty : getMetricType e.1 metricsType with
    | none => rw [hty] at h; simp at h
    | some ty =>
      rw [hty] at h
      simp only [Except.ok.injEq, Option.some.injEq] at h
      subst h
      refine ⟨rfl, rfl, ?_⟩
      rw [apply_ite (goBuildFQName oracledbNamespace context)]

theorem mem_rowSamples {context : String} {labels : List String}
    {metricsDesc metricsType : RowMap} {fieldToAppend env : String}
    {row : RowMap} {s : Sample}
    (h : s ∈ rowSamples context labels metricsDesc metricsType fieldToAppend env row) :
    ∃ e ∈ metricsDesc,
      emitOne context labels metricsType fieldToAppend
        (buildLabelValues labels row env) row e = .ok (some s) := by
  unfold rowSamples entrySamples at h
  rcases List.mem_filterMap.mp h with ⟨e, he, hfe⟩
  refine ⟨e, he, ?_⟩
  cases heo : emitOne context labels metricsType fieldToAppend
      (buildLabelValues labels row env) row e with
  | error u => rw [heo] at hfe; cases hfe
  | ok o =>
    cases o with
    | none => rw [heo] at hfe; cases hfe
    | some s' => rw [heo] at hfe; cases hfe; rfl

/-! ## Claims -/

/-- C6: when `fieldToAppend` is set to a column whose row value is the
string "Foo Bar(1)/2", the sanitized name fragment produced by `cleanName`
for the sample name is exactly "foo_bar12". -/
theorem c6_cleanName_foo_bar : cleanName "Foo Bar(1)/2" = "foo_bar12" := by decide

/-- C3 (code evaluated at the failing input): the Value Mapper resolves
"2020/01/23:16:00:03" through the cascade — the float parse of the trimmed
string fails, the fixed-format timestamp parse succeeds — but the epoch
value the code produces is the UTC reading 1579795203 (time.Parse without a
zone yields UTC), not the local-time reading the claim and the source
comment "using timezone of the box" describe: on a box at UTC+1 that
reading is 1579791603. -/
theorem c3_timestamp_is_utc_not_local :
    parseMetricValue "2020/01/23:16:00:03" = some (.num ((1579795203 : ℤ) : ℚ)) ∧
    parseFloat? (goTrimSpace "2020/01/23:16:00:03") = none ∧
    parseOracleDate? "2020/01/23:16:00:03" =
      some { year := 2020, month := 1, day := 23, hour := 16, minute := 0, second := 3 } ∧
    goUnix { year := 2020, month := 1, day := 23, hour := 16, minute := 0, second := 3 } =
      1579795203 ∧
    localUnix 3600 { year := 2020, month := 1, day := 23, hour := 16, minute := 0, second := 3 } =
      1579791603 ∧
    (1579795203 : ℤ) ≠ 1579791603 := by
  refine ⟨by decide, by decide, by decide, by decide, by decide, by decide⟩

/-- The row of C5's counterexample: a `fieldToAppend` column "name" holding
"Foo Bar(1)/2" and a metric column "value" holding "42". -/
def c5Row : RowMap := [("name", "Foo Bar(1)/2"), ("value", "42")]

/-- The sample the code emits for `c5Row`. -/
def c5Sample : Sample :=
  { name := "oracledb_activity_foo_bar12", help := "Help", labelNames := ["sid"],
    labelValues := ["db1"], type := .gauge, value := .num 42 }

set_option maxRecDepth 40000 in
/-- C5 (counterexample): the claim's name formula — `context + "_" +
sanitize(row[fieldToAppend])` with sanitize removing spaces — does not match
the code: the emitted name is "oracledb_activity_foo_bar12" (namespace
prefix "oracledb" included, space replaced by an underscore), while the
claim's formula yields "activity_foobar12". -/
theorem c5_counterexample :
    genericParser "activity" ["sid"] [("value", "Help")] [] "name" "db1" c5Row
        { samples := [], metricsCount := 0 } =
      .ok ({ samples := [c5Sample], metricsCount := 1 }, none) ∧
    c5Sample.name = "oracledb_activity_foo_bar12" ∧
    "activity" ++ "_" ++ specSanitize "Foo Bar(1)/2" = "activity_foobar12" ∧
    c5Sample.name ≠ "activity" ++ "_" ++ specSanitize "Foo Bar(1)/2" := by
  refine ⟨by decide, by decide, by decide, by decide⟩

/-- C5 (amended): every emitted sample's name is
`BuildFQName("oracledb", context, part)` where `part` is the metric column
when `fieldToAppend` is empty and `cleanName(row[fieldToAppend])` otherwise
(`cleanName`: spaces → underscores, parentheses and slashes removed,
lower-cased); for nonempty context and part this is
`"oracledb_" + context + "_" + part`. -/
theorem c5_amended_sample_names :
    (∀ (context : String) (labels : List String) (metricsDesc metricsType : RowMap)
       (fieldToAppend env : String) (row : RowMap) (st st' : GPState),
       WellTyped metricsType →
       genericParser context labels metricsDesc metricsType fieldToAppend env row st =
         .ok (st', none) →
       ∀ s ∈ st'.samples.drop st.samples.length, ∃ e ∈ metricsDesc,
         s.name = goBuildFQName oracledbNamespace context
           (if fieldToAppend = "" then e.1 else cleanName (rowGet row fieldToAppend))) ∧
    (∀ context nm : String, context ≠ "" → nm ≠ "" →
       goBuildFQName oracledbNamespace context nm = "oracledb_" ++ context ++ "_" ++ nm) := by
  constructor
  · intro context labels metricsDesc metricsType fieldToAppend env row st st' hw h s hs
    rw [genericParser_eq hw context labels metricsDesc fieldToAppend env row st] at h
    simp only [Except.ok.injEq, Prod.mk.injEq] at h
    rw [← h.1] at hs
    simp only [List.drop_left] at hs
    rcases mem_rowSamples hs with ⟨e, he, heo⟩
    exact ⟨e, he, (emitOne_some_shape heo).2.2⟩
  · intro context nm hc hn
    unfold goBuildFQName oracledbNamespace
    rw [if_neg hn]
    rw [if_pos ⟨by decide, hc⟩]
    simp

/-- The query outcome of C7's counterexample: `rows.Columns()` fails and the
driver then yields no rows. -/
def c7Qr : QueryResult :=
  { deadlineExceeded := false, queryErr := none,
    columns := .error "ORA-01000: column introspection failed", rows := [] }

/-- C7 (counterexample): a column-introspection failure is not propagated —
the decoder returns success (`none` error), because the error value of
`rows.Columns()` is assigned but never checked and the function ends in
`return nil`. -/
theorem c7_counterexample :
    generatePrometheusMetrics c7Qr
        (genericParser "ctx" ["sid"] [("value", "h")] [] "" "db1")
        { samples := [], metricsCount := 0 } =
      .ok ({ samples := [], metricsCount := 0 }, none) := by decide

/-- C7 (amended): a row-scan failure aborts the remaining rows and
propagates immediately as a `scanFailed` error, with the samples of the
already-decoded rows retained (not retracted); a column-introspection
failure, by contrast, is swallowed: its error is discarded and, when the
driver then yields no rows, the decoder returns success. -/
theorem c7_amended_decoder_errors :
    (∀ (context : String) (labels : List String) (metricsDesc metricsType : RowMap)
       (fieldToAppend env : String) (qr : QueryResult) (st : GPState)
       (cols : List String) (valsList : List (List String)) (e : String)
       (rest : List (Except String (List String))),
       WellTyped metricsType →
       qr.deadlineExceeded = false → qr.queryErr = none → qr.columns = .ok cols →
       qr.rows = valsList.map .ok ++ .error e :: rest →
       generatePrometheusMetrics qr
           (genericParser context labels metricsDesc metricsType fieldToAppend env) st =
         .ok ({ samples := st.samples ++ valsList.flatMap (fun v =>
                  rowSamples context labels metricsDesc metricsType fieldToAppend env
                    (buildRowMap cols v)),
                metricsCount := st.metricsCount + (valsList.flatMap (fun v =>
                  rowSamples context labels metricsDesc metricsType fieldToAppend env
                    (buildRowMap cols v))).length },
              some (.scanFailed e))) ∧
    (∀ (context : String) (labels : List String) (metricsDesc metricsType : RowMap)
       (fieldToAppend env : String) (qr : QueryResult) (st : GPState) (ce : String),
       qr.deadlineExceeded = false → qr.queryErr = none → qr.columns = .error ce →
       qr.rows = [] →
       generatePrometheusMetrics qr
           (genericParser context labels metricsDesc metricsType fieldToAppend env) st =
         .ok (st, none)) := by
  constructor
  · intro context labels metricsDesc metricsType fieldToAppend env qr st cols valsList
      e rest hw hd hq hcols hrows
    rw [gpm_rows _ st hd hq, hcols, hrows]
    exact gpmLoop_scan_err hw cols context labels metricsDesc fieldToAppend env e rest
      valsList st
  · intro context labels metricsDesc metricsType fieldToAppend env qr st ce hd hq hcols hrows
    rw [gpm_rows _ st hd hq, hcols, hrows]
    rfl

theorem gpmLoop_count_inv {metricsType : RowMap} (hw : WellTyped metricsType)
    (cols : List String) (context : String) (labels : List String)
    (metricsDesc : RowMap) (fieldToAppend env : String) :
    ∀ (rows : List (Except String (List String))) (st st' : GPState)
      (oe : Option ScrapeErr),
      st.metricsCount = st.samples.length →
      gpmLoop cols (genericParser context labels metricsDesc metricsType fieldToAppend env)
          rows st = .ok (st', oe) →
      st'.metricsCount = st'.samples.length := by
  intro rows
  induction rows with
  | nil =>
    intro st st' oe hinv h
    cases h
    exact hinv
  | cons r rest ih =>
    intro st st' oe hinv h
    cases r with
    | error m =>
      simp only [gpmLoop] at h
      cases h
      exact hinv
    | ok vals =>
      simp only [gpmLoop,
        genericParser_eq hw context labels metricsDesc fieldToAppend env
          (buildRowMap cols vals) st] at h
      refine ih _ st' oe ?_ h
      simp [hinv]

/-- C2: for a Metric Definition whose label list has N entries (nonempty —
`NewExporter` appends the reserved "sid" slot), the label-value tuple built
for every row has exactly N entries, its last entry is the target
identifier, entry i < N−1 is the row's value for label i (the empty string,
not an error, when that column is absent), and every emitted sample carries
exactly this tuple. -/
theorem c2_label_values :
    ∀ (labels : List String) (row : RowMap) (env : String), labels ≠ [] →
      (buildLabelValues labels row env).length = labels.length ∧
      (buildLabelValues labels row env).getLast? = some env ∧
      (∀ i : Nat, i + 1 < labels.length →
        (buildLabelValues labels row env).getD i "" = rowGet row (labels.getD i "")) ∧
      (∀ col, mapLookup row col = none → rowGet row col = "") ∧
      (∀ (context : String) (metricsDesc metricsType : RowMap) (fieldToAppend : String)
         (st st' : GPState), WellTyped metricsType →
         genericParser context labels metricsDesc metricsType fieldToAppend env row st =
           .ok (st', none) →
         ∀ s ∈ st'.samples.drop st.samples.length,
           s.labelValues = buildLabelValues labels row env) := by
  intro labels row env hne
  have hpos : 0 < labels.length := List.length_pos.mpr hne
  refine ⟨?_, ?_, ?_, ?_, ?_⟩
  · unfold buildLabelValues
    simp [List.length_dropLast]
    omega
  · unfold buildLabelValues
    simp [List.getLast?_concat]
  · intro i hi
    unfold buildLabelValues
    have hi' : i < (labels.dropLast.map (fun l => rowGet row l)).length := by
      simp [List.length_dropLast]; omega
    have hil : i < labels.length := by omega
    rw [List.getD_eq_getElem?_getD, List.getElem?_append, if_pos hi', List.getElem?_map,
      List.dropLast_eq_take, List.getElem?_take, if_pos (by omega : i < labels.length - 1),
      List.getElem?_eq_getElem hil]
    rw [List.getD_eq_getElem?_getD, List.getElem?_eq_getElem hil]
    rfl
  · intro col h
    unfold rowGet
    rw [h]
    rfl
  · intro context metricsDesc metricsType fieldToAppend st st' hw h s hs
    rw [genericParser_eq hw context labels metricsDesc fieldToAppend env row st] at h
    simp only [Except.ok.injEq, Prod.mk.injEq] at h
    rw [← h.1] at hs
    simp only [List.drop_left] at hs
    rcases mem_rowSamples hs with ⟨e, he, heo⟩
    exact (emitOne_some_shape heo).1

/-- C2 witness: the concrete instantiation with labels ["state", "sid"], a
row holding "ACTIVE" for "state", and target "ora1". -/
theorem c2_label_values_witness :
    (buildLabelValues ["state", "sid"] [("state", "ACTIVE")] "ora1").length = 2 ∧
    (buildLabelValues ["state", "sid"] [("state", "ACTIVE")] "ora1").getLast? =
      some "ora1" := by
  have h := c2_label_values ["state", "sid"] [("state", "ACTIVE")] "ora1" (by decide)
  exact ⟨h.1, h.2.1⟩

/-- C8: a scrape of one Metric Definition returns the dedicated timed-out
error exactly when the query's deadline was exceeded, and that error value
is distinct from every other error the decoder can produce. -/
theorem c8_timeout_error_distinct :
    (∀ (env context : String) (labels : List String) (metricsDesc metricsType : RowMap)
       (fieldToAppend : String) (ignoreZeroResult : Bool) (request : String)
       (qr : QueryResult) (st : GPState) (oe : Option ScrapeErr),
       scrapeGenericValues env context labels metricsDesc metricsType fieldToAppend
           ignoreZeroResult request qr = .ok (st, oe) →
       (oe = some .timedOut ↔ qr.deadlineExceeded = true)) ∧
    (∀ m : String, ScrapeErr.queryFailed m ≠ .timedOut ∧
       ScrapeErr.scanFailed m ≠ .timedOut) ∧
    ScrapeErr.noMetricsFound ≠ ScrapeErr.timedOut := by
  refine ⟨?_, ?_, ?_⟩
  case refine_2 =>
    intro m
    exact ⟨(fun h => by cases h), (fun h => by cases h)⟩
  case refine_3 =>
    intro h
    cases h
  intro env context labels metricsDesc metricsType fieldToAppend izr req qr st oe h
  cases hd : qr.deadlineExceeded with
  | true =>
    unfold scrapeGenericValues at h
    rw [gpm_deadline (genericParser context labels metricsDesc metricsType fieldToAppend env)
      { samples := [], metricsCount := 0 } hd] at h
    simp only [Except.ok.injEq, Prod.mk.injEq] at h
    rcases h with ⟨h1, h2⟩
    subst h2
    simp
  | false =>
    simp only [Bool.false_eq_true, iff_false]
    intro hoe
    subst hoe
    unfold scrapeGenericValues at h
    cases hq : qr.queryErr with
    | some e =>
      rw [gpm_queryErr (genericParser context labels metricsDesc metricsType fieldToAppend env)
        { samples := [], metricsCount := 0 } hd hq] at h
      simp at h
    | none =>
      rw [gpm_rows (genericParser context labels metricsDesc metricsType fieldToAppend env)
        { samples := [], metricsCount := 0 } hd hq] at h
      cases hl : gpmLoop (match qr.columns with | .ok cs => cs | .error _ => [])
          (genericParser context labels metricsDesc metricsType fieldToAppend env)
          qr.rows { samples := [], metricsCount := 0 } with
      | error u => rw [hl] at h; cases h
      | ok r =>
        cases r with
        | mk st'' oe'' =>
          rw [hl] at h
          rcases gpmLoop_err_shape _ context labels metricsDesc metricsType fieldToAppend
            env qr.rows _ st'' oe'' hl with hnone | ⟨m, hm⟩
          · subst hnone
            simp [ite_eq_iff] at h
          · subst hm
            simp at h

/-- C9: for an evaluation that completes without a decoder error, the
zero-result error is reported exactly when no sample was counted and
`ignoreZeroResult` is false (never when it is true); the sample counter
equals the number of emitted samples; and in the orchestrator's loop every
errored definition contributes exactly one `scrapeErrors` increment for its
(context, sid) pair while all definitions, the errored ones included, are
still queried. -/
theorem c9_zero_result_error :
    (∀ (env context : String) (labels : List String) (metricsDesc metricsType : RowMap)
       (fieldToAppend : String) (ignoreZeroResult : Bool) (request : String)
       (qr : QueryResult) (st : GPState),
       generatePrometheusMetrics qr
           (genericParser context labels metricsDesc metricsType fieldToAppend env)
           { samples := [], metricsCount := 0 } = .ok (st, none) →
       ((scrapeGenericValues env context labels metricsDesc metricsType fieldToAppend
           ignoreZeroResult request qr = .ok (st, some .noMetricsFound)) ↔
         (ignoreZeroResult = false ∧ st.metricsCount = 0)) ∧
       (ignoreZeroResult = true →
         scrapeGenericValues env context labels metricsDesc metricsType fieldToAppend
           ignoreZeroResult request qr = .ok (st, none))) ∧
    (∀ (env context : String) (labels : List String) (metricsDesc metricsType : RowMap)
       (fieldToAppend : String) (qr : QueryResult) (st : GPState) (oe : Option ScrapeErr),
       WellTyped metricsType →
       generatePrometheusMetrics qr
           (genericParser context labels metricsDesc metricsType fieldToAppend env)
           { samples := [], metricsCount := 0 } = .ok (st, oe) →
       st.metricsCount = st.samples.length) ∧
    (∀ (sid : String) (handle : Nat) (pairs : List (MetricDef × QueryResult))
       (st st' : LoopSt),
       scrapeLoop sid handle pairs st = .ok st' →
       st'.incs = st.incs ++ pairs.filterMap (fun p =>
         match scrapeMetric sid p.1 p.2 with
         | .ok (_, some _) => some (p.1.context, sid)
         | _ => none) ∧
       st'.queries = st.queries ++ pairs.map (fun p => DbOp.runQuery handle p.1.request)) := by
  refine ⟨?_, ?_, ?_⟩
  · intro env context labels metricsDesc metricsType fieldToAppend izr req qr st hgpm
    have hs := scrapeGenericValues_of_gpm izr req hgpm
    constructor
    · rw [hs]
      by_cases hc : izr = false ∧ st.metricsCount = 0
      · have hb : (!izr && st.metricsCount == 0) = true := by
          simp [hc.1, hc.2]
        rw [if_pos hb]
        simp [hc]
      · have hb : ¬ ((!izr && st.metricsCount == 0) = true) := by
          simp only [Bool.and_eq_true, Bool.not_eq_true', beq_iff_eq]
          intro hx
          exact hc ⟨hx.1, hx.2⟩
        rw [if_neg hb]
        simp [hc]
    · intro hiz
      subst hiz
      rw [hs]
      simp
  · intro env context labels metricsDesc metricsType fieldToAppend qr st oe hw hgpm
    unfold generatePrometheusMetrics at hgpm
    cases hd : qr.deadlineExceeded with
    | true =>
      rw [hd] at hgpm
      simp only [if_pos rfl] at hgpm
      cases hgpm
      rfl
    | false =>
      rw [hd] at hgpm
      simp only [Bool.false_eq_true, if_neg] at hgpm
      cases hq : qr.queryErr with
      | some e =>
        rw [hq] at hgpm
        simp only at hgpm
        cases hgpm
        rfl
      | none =>
        rw [hq] at hgpm
        simp only at hgpm
        exact gpmLoop_count_inv hw _ context labels metricsDesc fieldToAppend env
          qr.rows _ st oe rfl hgpm
  · intro sid handle pairs st st' h
    exact ⟨scrapeLoop_incs sid handle pairs st st' h,
      scrapeLoop_queries sid handle pairs st st' h⟩

/-- The single Metric Definition of C1's counterexample (zero results
ignored, so its scrape succeeds). -/
def c1Metric : MetricDef :=
  { context := "sessions", labels := ["sid"], metricsType := [],
    metricsDesc := [("value", "Gauge of sessions")], fieldToAppend := "",
    request := "SELECT 1", ignoreZeroResult := true }

/-- C1's query outcome: one row with value "3". -/
def c1Qr : QueryResult :=
  { deadlineExceeded := false, queryErr := none, columns := .ok ["value"],
    rows := [.ok ["3"]] }

/-- C1's cycle behaviour: the ping fails with an ordinary connectivity
error, not the "database is closed" signature. -/
def c1Beh : EnvBehavior :=
  { pingErr := some "dial tcp 10.0.0.1:1521: connect: connection refused",
    openErr := none, queryResults := [c1Qr] }

/-- The sample C1's scrape emits despite the failed ping. -/
def c1EmittedSample : Sample :=
  { name := "oracledb_sessions_value", help := "Gauge of sessions",
    labelNames := ["sid"], labelValues := ["ora1"], type := .gauge, value := .num 3 }

set_option maxRecDepth 40000 in
/-- C1 (counterexample): a ping failing with an error other than the
"database is closed" signature does not mark the target Failed — the up
gauge is set to 1 (not 0), the handle is not closed, and the configured
Metric Definition is executed (a query runs and its sample is emitted). -/
theorem c1_counterexample :
    scrapeEnv "ora1" [c1Metric] c1Beh =
      .ok { totalScrapesInc := 1, durationRecorded := true, errGauge := 0,
            upGauge := some 1, scrapeErrorIncs := [], samples := [c1EmittedSample],
            trace := [.ping 0, .runQuery 0 "SELECT 1"] } ∧
    (some 1 : Option Nat) ≠ some 0 ∧
    [DbOp.ping 0, DbOp.runQuery 0 "SELECT 1"].count (DbOp.runQuery 0 "SELECT 1") = 1 := by
  refine ⟨by decide, by decide, by decide⟩

/-- C1 (amended): the target is marked Failed — up set to 0, the (freshly
opened) handle closed, no Metric Definition attempted — only when the ping
error carries the "database is closed" signature and the re-open itself
fails; a ping failure with any other error falls through: up is set to 1
and every configured definition is queried on the existing handle. -/
theorem c1_amended_ping_behaviour :
    (∀ (sid : String) (metrics : List MetricDef) (beh : EnvBehavior) (msg e : String),
       beh.pingErr = some msg → isClosedErr msg = true → beh.openErr = some e →
       scrapeEnv sid metrics beh =
         .ok { totalScrapesInc := 1, durationRecorded := true, errGauge := 1,
               upGauge := some 0, scrapeErrorIncs := [], samples := [],
               trace := [.ping 0, .reopen, .closeHandle 1] }) ∧
    (∀ (sid : String) (metrics : List MetricDef) (beh : EnvBehavior) (msg : String)
       (out : ScrapeOutcome),
       beh.pingErr = some msg → isClosedErr msg = false →
       scrapeEnv sid metrics beh = .ok out →
       out.upGauge = some 1 ∧
       out.trace = .ping 0 :: (metrics.zip beh.queryResults).map
         (fun p => DbOp.runQuery 0 p.1.request)) := by
  constructor
  · intro sid metrics beh msg e hp hc ho
    exact scrapeEnv_closed_openFail hp hc ho
  · intro sid metrics beh msg out hp hc hout
    rw [scrapeEnv_ping_other hp hc] at hout
    rcases scrapeEnvRun_ok hout with ⟨st, hl, rfl⟩
    refine ⟨rfl, ?_⟩
    have hq := scrapeLoop_queries sid 0 (metrics.zip beh.queryResults) _ _ hl
    simp only [List.nil_append] at hq
    simp [hq]

/-- The definition of C4's counterexample whose scrape errors (zero rows
with `ignoreZeroResult` false). -/
def c4BadMetric : MetricDef :=
  { context := "bad", labels := ["sid"], metricsType := [],
    metricsDesc := [("value", "h")], fieldToAppend := "",
    request := "SELECT 2", ignoreZeroResult := false }

/-- The later definition of C4's counterexample whose scrape succeeds. -/
def c4OkMetric : MetricDef :=
  { context := "ok", labels := ["sid"], metricsType := [],
    metricsDesc := [("value", "h")], fieldToAppend := "",
    request := "SELECT 3", ignoreZeroResult := true }

/-- An empty (zero rows) query outcome. -/
def c4EmptyQr : QueryResult :=
  { deadlineExceeded := false, queryErr := none, columns := .ok ["value"], rows := [] }

/-- C4's cycle behaviour: the connection is healthy; both queries return no
rows. -/
def c4Beh : EnvBehavior :=
  { pingErr := none, openErr := none, queryResults := [c4EmptyQr, c4EmptyQr] }

/-- C4 (counterexample): the first definition's scrape errors (one
`scrapeErrors` increment is recorded) yet the last-scrape-error gauge ends
at 0, because the `err` variable is overwritten by the second, successful
definition — so the gauge is not 1 whenever "any" definition errored. -/
theorem c4_counterexample :
    scrapeEnv "ora1" [c4BadMetric, c4OkMetric] c4Beh =
      .ok { totalScrapesInc := 1, durationRecorded := true, errGauge := 0,
            upGauge := some 1, scrapeErrorIncs := [("bad", "ora1")], samples := [],
            trace := [.ping 0, .runQuery 0 "SELECT 2", .runQuery 0 "SELECT 3"] } ∧
    ([("bad", "ora1")] : List (String × String)) ≠ [] ∧
    (0 : Nat) ≠ 1 := by
  refine ⟨by decide, by decide, by decide⟩

/-- C4 (amended): the scrape duration and total-scrapes counter are always
recorded; the binary error gauge reflects only the final assignment to
`err` — with a healthy ping and at least one definition it is 1 exactly
when the last definition's scrape errored, and on the early-return
reconnect-failure path it is 1. -/
theorem c4_amended_error_gauge :
    (∀ (sid : String) (metrics : List MetricDef) (beh : EnvBehavior)
       (out : ScrapeOutcome),
       scrapeEnv sid metrics beh = .ok out →
       out.durationRecorded = true ∧ out.totalScrapesInc = 1) ∧
    (∀ (sid : String) (metrics : List MetricDef) (beh : EnvBehavior)
       (pairsInit : List (MetricDef × QueryResult)) (p : MetricDef × QueryResult)
       (out : ScrapeOutcome) (gst : GPState) (oe : Option ScrapeErr),
       beh.pingErr = none →
       metrics.zip beh.queryResults = pairsInit ++ [p] →
       scrapeEnv sid metrics beh = .ok out →
       scrapeMetric sid p.1 p.2 = .ok (gst, oe) →
       out.errGauge = if oe.isSome then 1 else 0) ∧
    (∀ (sid : String) (metrics : List MetricDef) (beh : EnvBehavior) (msg e : String)
       (out : ScrapeOutcome),
       beh.pingErr = some msg → isClosedErr msg = true → beh.openErr = some e →
       scrapeEnv sid metrics beh = .ok out → out.errGauge = 1) := by
  refine ⟨?_, ?_, ?_⟩
  · intro sid metrics beh out hout
    cases hp : beh.pingErr with
    | none =>
      rw [scrapeEnv_ping_none hp] at hout
      rcases scrapeEnvRun_ok hout with ⟨st, hl, rfl⟩
      exact ⟨rfl, rfl⟩
    | some msg =>
      cases hc : isClosedErr msg with
      | false =>
        rw [scrapeEnv_ping_other hp hc] at hout
        rcases scrapeEnvRun_ok hout with ⟨st, hl, rfl⟩
        exact ⟨rfl, rfl⟩
      | true =>
        cases ho : beh.openErr with
        | none =>
          rw [scrapeEnv_closed_openOk hp hc ho] at hout
          rcases scrapeEnvRun_ok hout with ⟨st, hl, rfl⟩
          exact ⟨rfl, rfl⟩
        | some e =>
          rw [scrapeEnv_closed_openFail hp hc ho] at hout
          cases hout
          exact ⟨rfl, rfl⟩
  · intro sid metrics beh pairsInit p out gst oe hp hzip hout hsm
    rw [scrapeEnv_ping_none hp] at hout
    rcases scrapeEnvRun_ok hout with ⟨st, hl, rfl⟩
    rw [hzip] at hl
    rcases scrapeLoop_hasErr_last sid 0 pairsInit p _ _ hl with ⟨gst', oe', hm', he'⟩
    rw [hsm] at hm'
    simp only [Except.ok.injEq, Prod.mk.injEq] at hm'
    rw [← hm'.2] at he'
    simp only [he']
  · intro sid metrics beh msg e out hp hc ho hout
    rw [scrapeEnv_closed_openFail hp hc ho] at hout
    cases hout
    rfl

/-- The Metric Definition of C10's scenario. -/
def c10Metric : MetricDef :=
  { context := "uptime", labels := ["sid"], metricsType := [],
    metricsDesc := [("value", "h")], fieldToAppend := "",
    request := "SELECT 4", ignoreZeroResult := true }

/-- C10's query outcome on the fresh handle. -/
def c10Qr : QueryResult :=
  { deadlineExceeded := false, queryErr := none, columns := .ok ["value"], rows := [] }

/-- C10's cycle behaviour: the ping fails with the "database is closed"
signature and the re-open succeeds. -/
def c10Beh : EnvBehavior :=
  { pingErr := some "sql: database is closed", openErr := none,
    queryResults := [c10Qr] }

/-- The outcome of C10's scenario. -/
def c10Out : ScrapeOutcome :=
  { totalScrapesInc := 1, durationRecorded := true, errGauge := 0,
    upGauge := some 1, scrapeErrorIncs := [], samples := [],
    trace := [.ping 0, .reopen, .runQuery 1 "SELECT 4"] }

/-- C10: when the ping fails with the "database is closed" signature and
`sql.Open` on the same descriptor succeeds, the target's up gauge is set
to 1 and every configured Metric Definition is queried on the fresh handle
(handle 1), with no further ping of that fresh handle — the trace holds
exactly one ping, the one that failed on the old handle. -/
theorem c10_reconnect_uses_fresh_handle :
    ∀ (sid : String) (metrics : List MetricDef) (beh : EnvBehavior) (msg : String)
      (out : ScrapeOutcome),
      beh.pingErr = some msg → isClosedErr msg = true → beh.openErr = none →
      scrapeEnv sid metrics beh = .ok out →
      out.upGauge = some 1 ∧
      out.trace = [DbOp.ping 0, DbOp.reopen] ++
        (metrics.zip beh.queryResults).map (fun p => DbOp.runQuery 1 p.1.request) ∧
      out.trace.countP (fun op => match op with | DbOp.ping _ => true | _ => false) = 1 ∧
      (metrics.length ≤ beh.queryResults.length →
        out.trace = [DbOp.ping 0, DbOp.reopen] ++
          metrics.map (fun m => DbOp.runQuery 1 m.request)) := by
  intro sid metrics beh msg out hp hc ho hout
  rw [scrapeEnv_closed_openOk hp hc ho] at hout
  rcases scrapeEnvRun_ok hout with ⟨st, hl, rfl⟩
  have hq := scrapeLoop_queries sid 1 (metrics.zip beh.queryResults) _ _ hl
  simp only [List.nil_append] at hq
  refine ⟨rfl, by simp [hq], ?_, ?_⟩
  · simp only [hq]
    simp [List.countP_append, List.countP_map]
  · intro hlen
    simp only [hq]
    have hfst : (metrics.zip beh.queryResults).map Prod.fst = metrics :=
      List.map_fst_zip metrics beh.queryResults hlen
    have hmaps : (metrics.zip beh.queryResults).map (fun p => DbOp.runQuery 1 p.1.request) =
        metrics.map (fun m => DbOp.runQuery 1 m.request) := by
      conv_rhs => rw [← hfst]
      rw [List.map_map]
      rfl
    rw [hmaps]

/-- C10 witness: the scenario instantiated with one definition and a
closed-signature ping failure followed by a successful re-open. -/
theorem c10_reconnect_witness :
    c10Out.upGauge = some 1 ∧
    c10Out.trace = [DbOp.ping 0, DbOp.reopen] ++
      ([c10Metric].zip c10Beh.queryResults).map (fun p => DbOp.runQuery 1 p.1.request) ∧
    c10Out.trace.countP (fun op => match op with | DbOp.ping _ => true | _ => false) = 1 ∧
    (([c10Metric] : List MetricDef).length ≤ c10Beh.queryResults.length →
      c10Out.trace = [DbOp.ping 0, DbOp.reopen] ++
        [c10Metric].map (fun m => DbOp.runQuery 1 m.request)) :=
  c10_reconnect_uses_fresh_handle "ora1" [c10Metric] c10Beh "sql: database is closed"
    c10Out rfl (by decide) rfl (by decide)
